import Mathlib

/-!
Verification of a short-video sharing backend (Express + Sequelize, `src/server.js`).

The embedding models the persistence store (`DB`) holding Users, Videos and
Comments, and one Lean function per HTTP handler.  Machine-level details that
the sources delegate to libraries are abstracted as follows:

* timestamps (`new Date()`) are naturals supplied by the caller;
* the JavaScript float expression `video.likes + video.views / 10` is embedded
  as exact rational arithmetic over `ℚ`;
* bcrypt hashing/comparison is a parameter (`compare`), and JWT
  signing/verification is a parameter (`verify`) of the respective handlers:
  their internals are library code, but the token payload `\x7bid: user.id\x7d`
  is kept as a `Nat`;
* the foreign-key and unique constraints declared on the models
  (`email: unique`, `User.hasMany(Video)`, `Video.hasMany(Comment)`,
  `User.hasMany(Comment)`) are enforced by the persistence layer: a create
  that violates them throws, which each handler catches and turns into a
  500 response with a handler-specific message.
-/

namespace VideoApp

/-- User model (`sequelize.define('User', ...)`): unique email, stored password
hash, username, inert follower/following lists. -/
structure User where
  id : Nat
  email : String
  password : String
  username : String
  followers : List Nat
  following : List Nat
deriving Repr, DecidableEq

/-- Video model (`sequelize.define('Video', ...)`): url, caption, owner id,
like and view counters (default 0), timestamp, derived recommendation score
(`recommendationsScore`, FLOAT, default 0). -/
structure Video where
  id : Nat
  url : String
  caption : String
  userId : Nat
  likes : Nat
  views : Nat
  timestamp : Nat
  recommendationsScore : ℚ
deriving Repr, DecidableEq

/-- Comment model (`sequelize.define('Comment', ...)`). -/
structure Comment where
  id : Nat
  videoId : Nat
  userId : Nat
  text : String
  timestamp : Nat
deriving Repr, DecidableEq

/-- The persistence store, with auto-increment primary-key counters. -/
structure DB where
  users : List User
  videos : List Video
  comments : List Comment
  nextUserId : Nat
  nextVideoId : Nat
  nextCommentId : Nat
deriving Repr, DecidableEq

/-- The store of a freshly synced database. -/
def DB.empty : DB :=
  { users := [], videos := [], comments := [],
    nextUserId := 1, nextVideoId := 1, nextCommentId := 1 }

/-- Error responses the handlers produce: 401 bodies, 404 JSON bodies, and the
per-handler generic 500 catch. -/
inductive ApiError where
  | unauthenticated (msg : String)
  | notFound (msg : String)
  | serverError (msg : String)
deriving Repr, DecidableEq

/-- The ranking rule: `video.likes + video.views / 10`, embedded exactly. -/
def score (likes views : Nat) : ℚ :=
  (likes : ℚ) + (views : ℚ) / 10

/-- `User.findOne(\x7b where: \x7b email \x7d \x7d)`. -/
def findUserByEmail (db : DB) (email : String) : Option User :=
  db.users.find? (fun u => u.email = email)

/-- `Video.findByPk(id)`. -/
def findVideoById (db : DB) (vid : Nat) : Option Video :=
  db.videos.find? (fun v => v.id = vid)

/-- POST /register: `User.create(\x7b email, password: hashed, username \x7d)`.
The unique constraint on `email` rejects a duplicate; the handler catches the
throw and answers 500 "Registration failed".  On success it signs a token
carrying the fresh user id. -/
def register (db : DB) (email hashed username : String) :
    Except ApiError (Nat × DB) :=
  if db.users.any (fun u => u.email = email) then
    .error (.serverError "Registration failed")
  else
    let u : User :=
      { id := db.nextUserId, email := email, password := hashed,
        username := username, followers := [], following := [] }
    .ok (u.id,
      { db with users := db.users ++ [u], nextUserId := db.nextUserId + 1 })

/-- POST /login: find the user by email; if absent, or if `bcrypt.compare`
fails against the stored hash, answer 401 `\x7berror: 'Invalid credentials'\x7d`;
otherwise sign a token carrying the user id. -/
def login (compare : String → String → Bool) (db : DB)
    (email password : String) : Except ApiError Nat :=
  match findUserByEmail db email with
  | none => .error (.unauthenticated "Invalid credentials")
  | some u =>
    if compare password u.password then .ok u.id
    else .error (.unauthenticated "Invalid credentials")

/-- POST /videos: `Video.create` with url `/videos/<filename>`, the given
caption, the authenticated user id, timestamp now, score 0 (likes and views
take their 0 defaults).  The foreign key `Video.userId → User` makes the
create throw for an unknown user; the handler catches it as 500
"Upload failed". -/
def postVideo (db : DB) (uid : Nat) (filename caption : String) (now : Nat) :
    Except ApiError (Video × DB) :=
  if db.users.any (fun u => u.id = uid) then
    let v : Video :=
      { id := db.nextVideoId, url := "/videos/" ++ filename,
        caption := caption, userId := uid, likes := 0, views := 0,
        timestamp := now, recommendationsScore := 0 }
    .ok (v,
      { db with videos := db.videos ++ [v], nextVideoId := db.nextVideoId + 1 })
  else .error (.serverError "Upload failed")

/-- POST /duets: identical `Video.create` call except the stored caption is
`caption + ' (Duet)'` and the catch message is "Duet upload failed". -/
def postDuet (db : DB) (uid : Nat) (filename caption : String) (now : Nat) :
    Except ApiError (Video × DB) :=
  if db.users.any (fun u => u.id = uid) then
    let v : Video :=
      { id := db.nextVideoId, url := "/videos/" ++ filename,
        caption := caption ++ " (Duet)", userId := uid, likes := 0, views := 0,
        timestamp := now, recommendationsScore := 0 }
    .ok (v,
      { db with videos := db.videos ++ [v], nextVideoId := db.nextVideoId + 1 })
  else .error (.serverError "Duet upload failed")

/-- POST /videos/:id/like: load by primary key; 404 `\x7berror: 'Video not
found'\x7d` when absent; otherwise `likes += 1`, recompute
`recommendationsScore = likes + views / 10`, and `video.save()` (update the
row with that primary key). -/
def likeVideo (db : DB) (vid : Nat) : Except ApiError (Video × DB) :=
  match findVideoById db vid with
  | none => .error (.notFound "Video not found")
  | some v =>
    let v' : Video :=
      { v with likes := v.likes + 1,
               recommendationsScore := score (v.likes + 1) v.views }
    .ok (v',
      { db with videos := db.videos.map (fun w => if w.id = vid then v' else w) })

/-- POST /videos/:id/comments: `Comment.create(\x7b videoId, userId, text,
timestamp \x7d)`.  The foreign keys `Comment.videoId → Video` and
`Comment.userId → User` make the create throw when either referent is absent;
the handler catches it as 500 "Comment failed". -/
def postComment (db : DB) (vid uid : Nat) (text : String) (now : Nat) :
    Except ApiError (Comment × DB) :=
  if db.videos.any (fun v => v.id = vid) && db.users.any (fun u => u.id = uid) then
    let c : Comment :=
      { id := db.nextCommentId, videoId := vid, userId := uid,
        text := text, timestamp := now }
    .ok (c,
      { db with comments := db.comments ++ [c],
                nextCommentId := db.nextCommentId + 1 })
  else .error (.serverError "Comment failed")

/-- Ordering used by GET /videos: `order: [['timestamp', 'DESC']]`. -/
def tsDesc (a b : Video) : Prop :=
  b.timestamp ≤ a.timestamp

/-- Ordering used by GET /recommended: `order: [['recommendationsScore', 'DESC']]`. -/
def scoreDesc (a b : Video) : Prop :=
  b.recommendationsScore ≤ a.recommendationsScore

instance : DecidableRel tsDesc := fun a b => by
  unfold tsDesc; infer_instance

instance : DecidableRel scoreDesc := fun a b => by
  unfold scoreDesc; infer_instance

instance : IsTotal Video tsDesc :=
  ⟨fun a b => Nat.le_total b.timestamp a.timestamp⟩

instance : IsTrans Video tsDesc :=
  ⟨fun _ _ _ hab hbc => le_trans hbc hab⟩

instance : IsTotal Video scoreDesc :=
  ⟨fun a b => le_total b.recommendationsScore a.recommendationsScore⟩

instance : IsTrans Video scoreDesc :=
  ⟨fun _ _ _ hab hbc => le_trans hbc hab⟩

/-- GET /videos: all videos, timestamp descending. -/
def getVideos (db : DB) : List Video :=
  db.videos.insertionSort tsDesc

/-- GET /recommended: videos by score descending, `limit: 20`. -/
def getRecommended (db : DB) : List Video :=
  (db.videos.insertionSort scoreDesc).take 20

/-- GET /videos/:id/comments: comments of the video, timestamp descending. -/
def getComments (db : DB) (vid : Nat) : List Comment :=
  (db.comments.filter (fun c => c.videoId = vid)).insertionSort
    (fun a b => b.timestamp ≤ a.timestamp)

/-- Removal of the first occurrence of `pat` from a character list: the
semantics of JavaScript `str.replace(pat, '')` with a string pattern, which
replaces only the first occurrence, anywhere in the string. -/
def removeFirst (pat : List Char) : List Char → List Char
  | [] => []
  | c :: cs =>
    if pat.isPrefixOf (c :: cs) then (c :: cs).drop pat.length
    else c :: removeFirst pat cs

/-- Outcomes of the auth middleware: 401 'No token', 401 'Invalid token'. -/
inductive AuthErr where
  | noToken
  | invalidToken
deriving Repr, DecidableEq

/-- The auth middleware:
`req.header('Authorization')?.replace('Bearer ', '')`, then
`if (!token) return 401 'No token'`, then `jwt.verify(token, secret)` with the
catch answering 401 'Invalid token'.  `verify` abstracts
`jwt.verify`: it yields the decoded payload's user id, or `none` when the
library throws. -/
def authGate (verify : String → Option Nat) (header : Option String) :
    Except AuthErr Nat :=
  match header with
  | none => .error .noToken
  | some h =>
    let token := String.mk (removeFirst "Bearer ".data h.data)
    if token = "" then .error .noToken
    else
      match verify token with
      | some uid => .ok uid
      | none => .error .invalidToken

/-- The operations in scope, one per endpoint.  Mutating endpoints run behind
the auth gate: the user id they carry is the one decoded from the bearer
token.  Read endpoints and login never write the store. -/
inductive Op where
  | opRegister (email hashed username : String)
  | opLogin (email password : String)
  | opUpload (uid : Nat) (filename caption : String) (now : Nat)
  | opDuet (uid : Nat) (filename caption : String) (now : Nat)
  | opLike (vid : Nat)
  | opComment (vid uid : Nat) (text : String) (now : Nat)
  | opListVideos
  | opListRecommended
  | opListComments (vid : Nat)
  | opProfile (uid : Nat)

/-- Effect of one request on the store.  A handler that answers an error
leaves the store unchanged. -/
def applyOp (db : DB) : Op → DB
  | .opRegister e hp un =>
    match register db e hp un with
    | .ok (_, db') => db'
    | .error _ => db
  | .opLogin _ _ => db
  | .opUpload uid f c t =>
    match postVideo db uid f c t with
    | .ok (_, db') => db'
    | .error _ => db
  | .opDuet uid f c t =>
    match postDuet db uid f c t with
    | .ok (_, db') => db'
    | .error _ => db
  | .opLike vid =>
    match likeVideo db vid with
    | .ok (_, db') => db'
    | .error _ => db
  | .opComment vid uid txt t =>
    match postComment db vid uid txt t with
    | .ok (_, db') => db'
    | .error _ => db
  | .opListVideos => db
  | .opListRecommended => db
  | .opListComments _ => db
  | .opProfile _ => db

/-- Stores reachable from a fresh database through the endpoints in scope. -/
inductive Reachable : DB → Prop where
  | init : Reachable DB.empty
  | step (db : DB) (op : Op) : Reachable db → Reachable (applyOp db op)

/-! Concrete sample data used to instantiate the theorems. -/

/-- A registered user. -/
def sampleUser : User :=
  { id := 1, email := "a@x.com", password := "hash-p", username := "a",
    followers := [], following := [] }

/-- A freshly uploaded video of `sampleUser`. -/
def sampleVideo : Video :=
  { id := 1, url := "/videos/f.mp4", caption := "hi", userId := 1,
    likes := 0, views := 0, timestamp := 5, recommendationsScore := 0 }

/-- A store holding `sampleUser` and `sampleVideo`. -/
def sampleDB : DB :=
  { users := [sampleUser], videos := [sampleVideo], comments := [],
    nextUserId := 2, nextVideoId := 2, nextCommentId := 1 }

/-! ### C1: liking recomputes and persists the exact score -/

/-- C1: for a stored video with like count `L` and view count `V`, the like
operation stores back the video with likes `L + 1` and recommendation score
exactly `(L + 1) + V / 10`, and the updated video is persisted in the
resulting store. -/
theorem like_recomputes_and_persists_score (db : DB) (vid : Nat) (v : Video)
    (h : findVideoById db vid = some v) :
    ∃ db',
      likeVideo db vid =
        .ok ({ v with likes := v.likes + 1,
                      recommendationsScore :=
                        (v.likes : ℚ) + 1 + (v.views : ℚ) / 10 },
             db')
      ∧ { v with likes := v.likes + 1,
                 recommendationsScore :=
                   (v.likes : ℚ) + 1 + (v.views : ℚ) / 10 }
          ∈ db'.videos := by
  have hv : v ∈ db.videos := List.mem_of_find?_eq_some h
  have hid : v.id = vid := by
    have := List.find?_some h
    simpa using this
  have hsc : score (v.likes + 1) v.views
      = (v.likes : ℚ) + 1 + (v.views : ℚ) / 10 := by
    unfold score; push_cast; ring
  have hlk : likeVideo db vid =
      .ok ({ v with likes := v.likes + 1,
                    recommendationsScore :=
                      (v.likes : ℚ) + 1 + (v.views : ℚ) / 10 },
           { db with videos :=
                       db.videos.map (fun w =>
                         if w.id = vid then
                           { v with likes := v.likes + 1,
                                    recommendationsScore :=
                                      (v.likes : ℚ) + 1 + (v.views : ℚ) / 10 }
                         else w) }) := by
    simp [likeVideo, h, hsc]
  exact ⟨_, hlk, List.mem_map.mpr ⟨v, hv, by simp [hid]⟩⟩

/-- C1 witness: on the fresh `sampleVideo` (likes 0, views 0) the like
operation yields likes 1 and score 1, persisted. -/
theorem like_recomputes_and_persists_score_witness :
    ∃ db',
      likeVideo sampleDB 1 =
        .ok ({ sampleVideo with
                 likes := sampleVideo.likes + 1,
                 recommendationsScore :=
                   (sampleVideo.likes : ℚ) + 1 + (sampleVideo.views : ℚ) / 10 },
             db')
      ∧ { sampleVideo with
            likes := sampleVideo.likes + 1,
            recommendationsScore :=
            (sampleVideo.likes : ℚ) + 1 + (sampleVideo.views : ℚ) / 10 }
          ∈ db'.videos :=
  like_recomputes_and_persists_score sampleDB 1 sampleVideo (by decide)

/-! ### C3: liking an absent video fails with NotFound, and only then -/

/-- C3: the like operation answers the 404 error `Video not found` exactly
when no stored video has the requested id, and NotFound is the only error it
can produce. -/
theorem like_absent_video_notFound (db : DB) (vid : Nat) :
    (likeVideo db vid = .error (.notFound "Video not found")
      ↔ ∀ v ∈ db.videos, v.id ≠ vid)
    ∧ ∀ e, likeVideo db vid = .error e → e = .notFound "Video not found" := by
  constructor
  · constructor
    · intro he v hv hvid
      cases hf : findVideoById db vid with
      | none =>
        unfold findVideoById at hf
        rw [List.find?_eq_none] at hf
        exact hf v hv (by simpa using hvid)
      | some w => simp [likeVideo, hf] at he
    · intro hall
      have hf : findVideoById db vid = none := by
        unfold findVideoById
        rw [List.find?_eq_none]
        intro a ha
        simpa using hall a ha
      simp [likeVideo, hf]
  · intro e he
    cases hf : findVideoById db vid with
    | none =>
      rw [likeVideo, hf] at he
      simpa using he.symm
    | some w => simp [likeVideo, hf] at he

/-- C3 witness: liking the absent id 99 in the sample store answers 404
`Video not found`. -/
theorem like_absent_video_notFound_witness :
    likeVideo sampleDB 99 = .error (.notFound "Video not found") :=
  (like_absent_video_notFound sampleDB 99).1.mpr (by decide)

/-! ### C2: views are permanently zero, so the score equals the like count -/

/-- Invariant of C2: every stored video has zero views and a recommendation
score equal to its like count. -/
def VideosInv (db : DB) : Prop :=
  ∀ v ∈ db.videos, v.views = 0 ∧ v.recommendationsScore = (v.likes : ℚ)

/-- Every endpoint preserves `VideosInv`: none increments `views`, and the
only writes to `recommendationsScore` are 0 at creation and the like
recomputation. -/
theorem videosInv_applyOp (db : DB) (op : Op) (h : VideosInv db) :
    VideosInv (applyOp db op) := by
  cases op with
  | opRegister e hp un =>
    by_cases hc : db.users.any (fun u => u.email = e) = true
    · simp only [applyOp, register, if_pos hc]
      exact h
    · simp only [applyOp, register, if_neg hc]
      intro v hv
      exact h v hv
  | opLogin e p => exact h
  | opUpload uid f c t =>
    by_cases hc : db.users.any (fun u => u.id = uid) = true
    · simp only [applyOp, postVideo, if_pos hc]
      intro v hv
      rcases List.mem_append.mp hv with hv | hv
      · exact h v hv
      · rw [List.mem_singleton.mp hv]
        exact ⟨rfl, by norm_num⟩
    · simp only [applyOp, postVideo, if_neg hc]
      exact h
  | opDuet uid f c t =>
    by_cases hc : db.users.any (fun u => u.id = uid) = true
    · simp only [applyOp, postDuet, if_pos hc]
      intro v hv
      rcases List.mem_append.mp hv with hv | hv
      · exact h v hv
      · rw [List.mem_singleton.mp hv]
        exact ⟨rfl, by norm_num⟩
    · simp only [applyOp, postDuet, if_neg hc]
      exact h
  | opLike vid =>
    cases hf : findVideoById db vid with
    | none =>
      simp only [applyOp, likeVideo, hf]
      exact h
    | some w =>
      have hw : w ∈ db.videos := List.mem_of_find?_eq_some hf
      obtain ⟨hwv, hws⟩ := h w hw
      simp only [applyOp, likeVideo, hf]
      intro v hv
      obtain ⟨u, hu, hfu⟩ := List.mem_map.mp hv
      by_cases huid : u.id = vid
      · rw [if_pos huid] at hfu
        rw [← hfu]
        refine ⟨hwv, ?_⟩
        simp only [score, hwv]
        push_cast
        ring
      · rw [if_neg huid] at hfu
        rw [← hfu]
        exact h u hu
  | opComment vid uid txt t =>
    by_cases hc : (db.videos.any (fun v => v.id = vid)
        && db.users.any (fun u => u.id = uid)) = true
    · simp only [applyOp, postComment, if_pos hc]
      intro v hv
      exact h v hv
    · simp only [applyOp, postComment, if_neg hc]
      exact h
  | opListVideos => exact h
  | opListRecommended => exact h
  | opListComments vid => exact h
  | opProfile uid => exact h

/-- The invariant holds in every reachable store. -/
theorem videosInv_reachable (db : DB) (hr : Reachable db) : VideosInv db := by
  induction hr with
  | init => intro w hw; cases hw
  | step db' op hdb ih => exact videosInv_applyOp db' op ih

/-- C2: in every reachable store every video has `views = 0`, and its
recommendation score equals its like count. -/
theorem reachable_views_zero_score_eq_likes (db : DB) (hr : Reachable db)
    (v : Video) (hv : v ∈ db.videos) :
    v.views = 0 ∧ v.recommendationsScore = (v.likes : ℚ) :=
  videosInv_reachable db hr v hv

/-! Scenario used to instantiate the reachability invariants: register a
user, upload a video, like it, comment on it. -/

/-- Store after registering `a@x.com`. -/
def step1 : DB := applyOp DB.empty (.opRegister "a@x.com" "hash-p" "a")

/-- Store after user 1 uploads `f.mp4`. -/
def step2 : DB := applyOp step1 (.opUpload 1 "f.mp4" "hi" 5)

/-- Store after liking video 1. -/
def step3 : DB := applyOp step2 (.opLike 1)

/-- Store after user 1 comments on video 1. -/
def step4 : DB := applyOp step3 (.opComment 1 1 "nice" 7)

/-- The liked video as stored in `step3`. -/
def sampleLikedVideo : Video :=
  { id := 1, url := "/videos/f.mp4", caption := "hi", userId := 1,
    likes := 1, views := 0, timestamp := 5, recommendationsScore := 1 }

/-- The comment as stored in `step4`. -/
def sampleComment : Comment :=
  { id := 1, videoId := 1, userId := 1, text := "nice", timestamp := 7 }

/-- Evaluation of the register step. -/
theorem step1_eval :
    step1 = { users := [sampleUser], videos := [], comments := [],
              nextUserId := 2, nextVideoId := 1, nextCommentId := 1 } := by
  simp [step1, applyOp, register, DB.empty, sampleUser]

/-- Evaluation of the upload step. -/
theorem step2_eval :
    step2 = { users := [sampleUser], videos := [sampleVideo], comments := [],
              nextUserId := 2, nextVideoId := 2, nextCommentId := 1 } := by
  simp [step2, step1_eval, applyOp, postVideo, sampleUser, sampleVideo]

/-- Evaluation of the like step. -/
theorem step3_eval :
    step3 = { users := [sampleUser], videos := [sampleLikedVideo],
              comments := [], nextUserId := 2, nextVideoId := 2,
              nextCommentId := 1 } := by
  simp [step3, step2_eval, applyOp, likeVideo, findVideoById, score,
    sampleUser, sampleVideo, sampleLikedVideo]

/-- Evaluation of the comment step. -/
theorem step4_eval :
    step4 = { users := [sampleUser], videos := [sampleLikedVideo],
              comments := [sampleComment], nextUserId := 2, nextVideoId := 2,
              nextCommentId := 2 } := by
  simp [step4, step3_eval, applyOp, postComment, sampleUser, sampleLikedVideo,
    sampleComment]

/-- `step3` is reachable. -/
theorem reachable_step3 : Reachable step3 :=
  Reachable.step step2 (.opLike 1)
    (Reachable.step step1 (.opUpload 1 "f.mp4" "hi" 5)
      (Reachable.step DB.empty (.opRegister "a@x.com" "hash-p" "a")
        Reachable.init))

/-- `step4` is reachable. -/
theorem reachable_step4 : Reachable step4 :=
  Reachable.step step3 (.opComment 1 1 "nice" 7) reachable_step3

/-- C2 witness: the stored liked video of the concrete scenario has zero
views and score equal to its like count. -/
theorem reachable_views_zero_score_eq_likes_witness :
    sampleLikedVideo.views = 0
      ∧ sampleLikedVideo.recommendationsScore = (sampleLikedVideo.likes : ℚ) :=
  reachable_views_zero_score_eq_likes step3 reachable_step3 sampleLikedVideo
    (by rw [step3_eval]; exact List.mem_singleton.mpr rfl)

/-! ### C4: comment foreign keys always reference existing rows -/

/-- Invariant of C4: every stored comment references an existing video and an
existing user. -/
def CommentsInv (db : DB) : Prop :=
  ∀ c ∈ db.comments,
    (∃ v ∈ db.videos, v.id = c.videoId) ∧ (∃ u ∈ db.users, u.id = c.userId)

/-- Every endpoint preserves `CommentsInv`: users and videos are never
deleted, the like update keeps video ids, and the comment create is rejected
by the foreign-key constraints when either referent is absent. -/
theorem commentsInv_applyOp (db : DB) (op : Op) (h : CommentsInv db) :
    CommentsInv (applyOp db op) := by
  cases op with
  | opRegister e hp un =>
    by_cases hc : db.users.any (fun u => u.email = e) = true
    · simp only [applyOp, register, if_pos hc]
      exact h
    · simp only [applyOp, register, if_neg hc]
      intro c hcm
      obtain ⟨⟨v, hv, hvid⟩, ⟨u, hu, huid⟩⟩ := h c hcm
      exact ⟨⟨v, hv, hvid⟩, ⟨u, List.mem_append_left _ hu, huid⟩⟩
  | opLogin e p => exact h
  | opUpload uid f cap t =>
    by_cases hc : db.users.any (fun u => u.id = uid) = true
    · simp only [applyOp, postVideo, if_pos hc]
      intro c hcm
      obtain ⟨⟨v, hv, hvid⟩, ⟨u, hu, huid⟩⟩ := h c hcm
      exact ⟨⟨v, List.mem_append_left _ hv, hvid⟩, ⟨u, hu, huid⟩⟩
    · simp only [applyOp, postVideo, if_neg hc]
      exact h
  | opDuet uid f cap t =>
    by_cases hc : db.users.any (fun u => u.id = uid) = true
    · simp only [applyOp, postDuet, if_pos hc]
      intro c hcm
      obtain ⟨⟨v, hv, hvid⟩, ⟨u, hu, huid⟩⟩ := h c hcm
      exact ⟨⟨v, List.mem_append_left _ hv, hvid⟩, ⟨u, hu, huid⟩⟩
    · simp only [applyOp, postDuet, if_neg hc]
      exact h
  | opLike vid =>
    cases hf : findVideoById db vid with
    | none =>
      simp only [applyOp, likeVideo, hf]
      exact h
    | some w =>
      have hwid : w.id = vid := by
        have := List.find?_some hf
        simpa using this
      simp only [applyOp, likeVideo, hf]
      intro c hcm
      obtain ⟨⟨v, hv, hvid⟩, hu⟩ := h c hcm
      refine ⟨⟨if v.id = vid then
          { w with likes := w.likes + 1,
                   recommendationsScore := score (w.likes + 1) w.views }
        else v, ?_, ?_⟩, hu⟩
      · exact List.mem_map.mpr ⟨v, hv, rfl⟩
      · by_cases hv' : v.id = vid
        · rw [if_pos hv']
          simp only
          rw [hwid, ← hv']
          exact hvid
        · rw [if_neg hv']
          exact hvid
  | opComment vid uid txt t =>
    by_cases hc : (db.videos.any (fun v => v.id = vid)
        && db.users.any (fun u => u.id = uid)) = true
    · have hex := hc
      simp only [Bool.and_eq_true, List.any_eq_true, decide_eq_true_eq] at hex
      obtain ⟨⟨v0, hv0, hv0id⟩, ⟨u0, hu0, hu0id⟩⟩ := hex
      simp only [applyOp, postComment, if_pos hc]
      intro c hcm
      rcases List.mem_append.mp hcm with hcm | hcm
      · exact h c hcm
      · rw [List.mem_singleton.mp hcm]
        exact ⟨⟨v0, hv0, hv0id⟩, ⟨u0, hu0, hu0id⟩⟩
    · simp only [applyOp, postComment, if_neg hc]
      exact h
  | opListVideos => exact h
  | opListRecommended => exact h
  | opListComments vid => exact h
  | opProfile uid => exact h

/-- The comment foreign-key invariant holds in every reachable store. -/
theorem commentsInv_reachable (db : DB) (hr : Reachable db) : CommentsInv db := by
  induction hr with
  | init => intro x hx; cases hx
  | step db' op hdb ih => exact commentsInv_applyOp db' op ih

/-- C4: in every reachable store every comment's `videoId` references a
stored video and its `userId` a stored user; in particular a comment create
aimed at an absent video is rejected and stores nothing. -/
theorem reachable_comment_fks_valid (db : DB) (hr : Reachable db)
    (c : Comment) (hc : c ∈ db.comments) :
    (∃ v ∈ db.videos, v.id = c.videoId) ∧ (∃ u ∈ db.users, u.id = c.userId) :=
  commentsInv_reachable db hr c hc

/-- C4 witness: the concrete scenario's comment references the stored video 1
and the stored user 1. -/
theorem reachable_comment_fks_valid_witness :
    (∃ v ∈ step4.videos, v.id = sampleComment.videoId)
      ∧ (∃ u ∈ step4.users, u.id = sampleComment.userId) :=
  reachable_comment_fks_valid step4 reachable_step4 sampleComment
    (by rw [step4_eval]; exact List.mem_singleton.mpr rfl)

/-! ### C5: the two feed orderings -/

/-- C5: GET /videos returns exactly the stored videos (a permutation), sorted
by timestamp descending; GET /recommended is sorted by recommendation score
descending, has at most 20 items, and draws them from the stored videos. -/
theorem feeds_ordered (db : DB) :
    (getVideos db).Perm db.videos
    ∧ List.Sorted tsDesc (getVideos db)
    ∧ List.Sorted scoreDesc (getRecommended db)
    ∧ (getRecommended db).length ≤ 20
    ∧ getRecommended db ⊆ db.videos := by
  refine ⟨List.perm_insertionSort tsDesc db.videos,
    List.sorted_insertionSort tsDesc db.videos, ?_, ?_, ?_⟩
  · exact ((List.sorted_insertionSort scoreDesc db.videos).sublist
      (List.take_sublist 20 _))
  · exact List.length_take_le 20 _
  · intro v hv
    have hv' : v ∈ db.videos.insertionSort scoreDesc :=
      List.take_subset 20 _ hv
    exact (List.perm_insertionSort scoreDesc db.videos).subset hv'

/-- C5 witness: the orderings evaluated on the sample store. -/
theorem feeds_ordered_witness :
    (getVideos sampleDB).Perm sampleDB.videos
    ∧ List.Sorted tsDesc (getVideos sampleDB)
    ∧ List.Sorted scoreDesc (getRecommended sampleDB)
    ∧ (getRecommended sampleDB).length ≤ 20
    ∧ getRecommended sampleDB ⊆ sampleDB.videos :=
  feeds_ordered sampleDB

/-! ### C6: wrong-password logins are indistinguishable -/

/-- C6: whenever the password check fails — including the case where no user
with the given email exists at all — the login handler answers the one fixed
response 401 `Invalid credentials`, so the response does not reveal whether
the email is registered. -/
theorem login_wrong_password_uniform (compare : String → String → Bool)
    (db : DB) (email password : String)
    (h : ∀ u, findUserByEmail db email = some u
      → compare password u.password = false) :
    login compare db email password
      = .error (.unauthenticated "Invalid credentials") := by
  cases hf : findUserByEmail db email with
  | none => simp [login, hf]
  | some u => simp [login, hf, h u hf]

/-- C6 witness: with a failing password check, logging in with the registered
email `a@x.com` produces exactly the same error as the handler produces for
an unknown email. -/
theorem login_wrong_password_uniform_witness :
    login (fun _ _ => false) sampleDB "a@x.com" "wrong"
      = .error (.unauthenticated "Invalid credentials") :=
  login_wrong_password_uniform (fun _ _ => false) sampleDB "a@x.com" "wrong"
    (fun _ _ => rfl)

/-! ### C7: a duet upload is a plain upload with a suffixed caption -/

/-- C7: for an authenticated (stored) user, the duet handler behaves exactly
as the plain upload handler called with ` (Duet)` appended to the caption;
on the same caption input both succeed and the created videos agree on url,
owner, counters, score, timestamp and id, differing only in the caption. -/
theorem duet_is_upload_with_suffix (db : DB) (uid : Nat)
    (filename caption : String) (now : Nat)
    (h : ∃ u ∈ db.users, u.id = uid) :
    postDuet db uid filename caption now
      = postVideo db uid filename (caption ++ " (Duet)") now
    ∧ ∃ v1 db1 v2 db2,
        postVideo db uid filename caption now = .ok (v1, db1)
        ∧ postDuet db uid filename caption now = .ok (v2, db2)
        ∧ v2.url = v1.url ∧ v2.userId = v1.userId ∧ v2.likes = v1.likes
        ∧ v2.views = v1.views
        ∧ v2.recommendationsScore = v1.recommendationsScore
        ∧ v2.timestamp = v1.timestamp ∧ v2.id = v1.id
        ∧ v2.caption = v1.caption ++ " (Duet)" := by
  have hc : db.users.any (fun u => u.id = uid) = true := by
    simp only [List.any_eq_true, decide_eq_true_eq]
    exact h
  constructor
  · simp [postDuet, postVideo, hc]
  · have h1 : postVideo db uid filename caption now =
        .ok ({ id := db.nextVideoId, url := "/videos/" ++ filename,
               caption := caption, userId := uid, likes := 0, views := 0,
               timestamp := now, recommendationsScore := 0 },
             { db with
                 videos := db.videos ++
                   [{ id := db.nextVideoId, url := "/videos/" ++ filename,
                      caption := caption, userId := uid, likes := 0,
                      views := 0, timestamp := now,
                      recommendationsScore := 0 }],
                 nextVideoId := db.nextVideoId + 1 }) := by
      simp [postVideo, hc]
    have h2 : postDuet db uid filename caption now =
        .ok ({ id := db.nextVideoId, url := "/videos/" ++ filename,
               caption := caption ++ " (Duet)", userId := uid, likes := 0,
               views := 0, timestamp := now, recommendationsScore := 0 },
             { db with
                 videos := db.videos ++
                   [{ id := db.nextVideoId, url := "/videos/" ++ filename,
                      caption := caption ++ " (Duet)", userId := uid,
                      likes := 0, views := 0, timestamp := now,
                      recommendationsScore := 0 }],
                 nextVideoId := db.nextVideoId + 1 }) := by
      simp [postDuet, hc]
    exact ⟨_, _, _, _, h1, h2, rfl, rfl, rfl, rfl, rfl, rfl, rfl, rfl⟩

/-- C7 witness: the duet and plain uploads of user 1 in the sample store. -/
theorem duet_is_upload_with_suffix_witness :
    postDuet sampleDB 1 "g.mp4" "yo" 9
      = postVideo sampleDB 1 "g.mp4" ("yo" ++ " (Duet)") 9
    ∧ ∃ v1 db1 v2 db2,
        postVideo sampleDB 1 "g.mp4" "yo" 9 = .ok (v1, db1)
        ∧ postDuet sampleDB 1 "g.mp4" "yo" 9 = .ok (v2, db2)
        ∧ v2.url = v1.url ∧ v2.userId = v1.userId ∧ v2.likes = v1.likes
        ∧ v2.views = v1.views
        ∧ v2.recommendationsScore = v1.recommendationsScore
        ∧ v2.timestamp = v1.timestamp ∧ v2.id = v1.id
        ∧ v2.caption = v1.caption ++ " (Duet)" :=
  duet_is_upload_with_suffix sampleDB 1 "g.mp4" "yo" 9
    ⟨sampleUser, by simp [sampleDB], rfl⟩

/-! ### C8: the like operation's frame -/

/-- C8: under primary-key uniqueness of the stored video ids, a successful
like leaves the users, the comments and the id counters untouched, and
rewrites the video list so that only the liked video changes, and of it only
the `likes` and `recommendationsScore` fields — url, caption, owner, views
and timestamp of every stored video are kept. -/
theorem like_frame (db : DB) (vid : Nat) (v' : Video) (db' : DB)
    (huniq : (db.videos.map Video.id).Nodup)
    (h : likeVideo db vid = .ok (v', db')) :
    db'.users = db.users ∧ db'.comments = db.comments
    ∧ db'.nextUserId = db.nextUserId ∧ db'.nextVideoId = db.nextVideoId
    ∧ db'.nextCommentId = db.nextCommentId
    ∧ db'.videos = db.videos.map (fun w =>
        if w.id = vid then
          { w with likes := w.likes + 1,
                   recommendationsScore := score (w.likes + 1) w.views }
        else w) := by
  cases hf : findVideoById db vid with
  | none => simp [likeVideo, hf] at h
  | some w =>
    have hw : w ∈ db.videos := List.mem_of_find?_eq_some hf
    have hwid : w.id = vid := by
      have := List.find?_some hf
      simpa using this
    simp only [likeVideo, hf, Except.ok.injEq, Prod.mk.injEq] at h
    obtain ⟨hv', hdb'⟩ := h
    rw [← hdb']
    refine ⟨rfl, rfl, rfl, rfl, rfl, ?_⟩
    apply List.map_congr_left
    intro x hx
    by_cases hxid : x.id = vid
    · have hxw : x = w :=
        List.inj_on_of_nodup_map huniq hx hw (by rw [hxid, hwid])
      rw [if_pos hxid, if_pos hxid, hxw]
    · rw [if_neg hxid, if_neg hxid]

/-- The sample store after liking its video. -/
def sampleDBLiked : DB :=
  { sampleDB with videos := [sampleLikedVideo] }

/-- C8 witness: liking video 1 of the sample store keeps everything except
that video's likes and score. -/
theorem like_frame_witness :
    sampleDBLiked.users = sampleDB.users
    ∧ sampleDBLiked.comments = sampleDB.comments
    ∧ sampleDBLiked.nextUserId = sampleDB.nextUserId
    ∧ sampleDBLiked.nextVideoId = sampleDB.nextVideoId
    ∧ sampleDBLiked.nextCommentId = sampleDB.nextCommentId
    ∧ sampleDBLiked.videos
        = sampleDB.videos.map (fun w =>
            if w.id = 1 then
              { w with likes := w.likes + 1,
                       recommendationsScore := score (w.likes + 1) w.views }
            else w) :=
  like_frame sampleDB 1 sampleLikedVideo sampleDBLiked
    (by decide)
    (by simp [likeVideo, findVideoById, sampleDB, sampleVideo,
          sampleLikedVideo, sampleDBLiked, score])

/-! ### C9: a duplicate email cannot register twice -/

/-- C9: when no stored user holds the email yet, registration succeeds; an
immediately repeated registration with the same email is rejected by the
unique constraint (surfaced as the handler's generic failure), and the store
after the first registration holds exactly one user with that email. -/
theorem register_duplicate_email_rejected (db : DB)
    (e hash1 un1 hash2 un2 : String)
    (hfresh : ∀ u ∈ db.users, u.email ≠ e) :
    ∃ t db1,
      register db e hash1 un1 = .ok (t, db1)
      ∧ register db1 e hash2 un2 = .error (.serverError "Registration failed")
      ∧ (db1.users.filter (fun u => u.email = e)).length = 1 := by
  have hc : ¬ db.users.any (fun u => u.email = e) = true := by
    simp only [List.any_eq_true, decide_eq_true_eq, not_exists]
    intro u
    simp only [not_and]
    exact hfresh u
  refine ⟨db.nextUserId,
    { db with
        users := db.users ++
          [{ id := db.nextUserId, email := e, password := hash1,
             username := un1, followers := [], following := [] }],
        nextUserId := db.nextUserId + 1 }, ?_, ?_, ?_⟩
  · simp [register, hc]
  · simp [register]
  · have hnil : db.users.filter (fun u => decide (u.email = e)) = [] := by
      rw [List.filter_eq_nil_iff]
      intro u hu
      simpa using hfresh u hu
    simp [List.filter_append, hnil]

/-- C9 witness: registering `a@x.com` on the fresh store succeeds and the
repeated registration fails, leaving one user with that email. -/
theorem register_duplicate_email_rejected_witness :
    ∃ t db1,
      register DB.empty "a@x.com" "hash-p" "a" = .ok (t, db1)
      ∧ register db1 "a@x.com" "hash-q" "b"
          = .error (.serverError "Registration failed")
      ∧ (db1.users.filter (fun u => u.email = "a@x.com")).length = 1 :=
  register_duplicate_email_rejected DB.empty "a@x.com" "hash-p" "a" "hash-q" "b"
    (fun u hu => absurd hu (List.not_mem_nil u))

/-! ### C10: the auth gate accepts bare and prefixed tokens alike -/

/-- The pattern the middleware strips: the first occurrence of `Bearer `. -/
def bearerPat : List Char := "Bearer ".data

/-- Stripping the pattern from a string it starts with yields the rest. -/
theorem removeFirst_prepend (t : List Char) :
    removeFirst bearerPat (bearerPat ++ t) = t := by
  show removeFirst bearerPat ('B' :: ("earer ".data ++ t)) = t
  rw [removeFirst]
  rw [if_pos]
  · show (bearerPat ++ t).drop bearerPat.length = t
    exact List.drop_left bearerPat t
  · exact List.isPrefixOf_iff_prefix.mpr (List.prefix_append bearerPat t)

/-- C10: the middleware strips `Bearer ` only when it occurs; a bare token in
the Authorization header is verified and authorizes exactly like the
`Bearer `-prefixed one, while a missing header is answered 401 `No token`. -/
theorem authGate_bearer_optional (verify : String → Option Nat) (t : String)
    (uid : Nat) (hne : t ≠ "")
    (hnb : removeFirst bearerPat t.data = t.data)
    (hv : verify t = some uid) :
    authGate verify (some ("Bearer " ++ t)) = .ok uid
    ∧ authGate verify (some t) = .ok uid
    ∧ authGate verify none = .error .noToken := by
  refine ⟨?_, ?_, rfl⟩
  · show (let token := String.mk (removeFirst "Bearer ".data ("Bearer " ++ t).data)
      if token = "" then Except.error AuthErr.noToken
      else match verify token with
        | some u => Except.ok u
        | none => Except.error AuthErr.invalidToken) = Except.ok uid
    have hstrip : removeFirst "Bearer ".data ("Bearer " ++ t).data = t.data :=
      removeFirst_prepend t.data
    simp only [hstrip]
    have hmk : String.mk t.data = t := rfl
    rw [hmk, if_neg hne, hv]
  · show (let token := String.mk (removeFirst "Bearer ".data t.data)
      if token = "" then Except.error AuthErr.noToken
      else match verify token with
        | some u => Except.ok u
        | none => Except.error AuthErr.invalidToken) = Except.ok uid
    simp only [bearerPat] at hnb
    simp only [hnb]
    have hmk : String.mk t.data = t := rfl
    rw [hmk, if_neg hne, hv]

/-- C10 witness: the sample token `tok.abc` authorizes both bare and
prefixed, and the missing header is rejected. -/
theorem authGate_bearer_optional_witness :
    authGate (fun s => if s = "tok.abc" then some 7 else none)
        (some ("Bearer " ++ "tok.abc")) = .ok 7
    ∧ authGate (fun s => if s = "tok.abc" then some 7 else none)
        (some "tok.abc") = .ok 7
    ∧ authGate (fun s => if s = "tok.abc" then some 7 else none) none
        = .error .noToken :=
  authGate_bearer_optional (fun s => if s = "tok.abc" then some 7 else none)
    "tok.abc" 7 (by decide) (by decide) (by decide)

end VideoApp
